import Mathlib

/-
Verification of the three-body gravity simulator in src/main.js.

The simulator works over three.js Vector3 values with JavaScript number
arithmetic; we idealise the numbers as real numbers.  The vector
operations used by the program (clone, add, sub, negate, multiplyScalar,
divideScalar, length, normalize, distanceTo) are embedded with the
semantics of the three.js library: divideScalar multiplies by the scalar
reciprocal, and normalize divides by the length guarded against zero
(the JavaScript expression divides by the length or by one when the
length is zero).  Cloning followed by mutation is pure value production,
so clone chains are embedded as plain expressions.
-/

noncomputable section

namespace ThreeBody

/-- A three.js Vector3, idealised over the real numbers. -/
@[ext]
structure Vec3 where
  x : ℝ
  y : ℝ
  z : ℝ

def Vec3.add (a b : Vec3) : Vec3 := ⟨a.x + b.x, a.y + b.y, a.z + b.z⟩

def Vec3.sub (a b : Vec3) : Vec3 := ⟨a.x - b.x, a.y - b.y, a.z - b.z⟩

def Vec3.negate (a : Vec3) : Vec3 := ⟨-a.x, -a.y, -a.z⟩

def Vec3.multiplyScalar (a : Vec3) (s : ℝ) : Vec3 := ⟨a.x * s, a.y * s, a.z * s⟩

/-- The three.js divideScalar multiplies by the reciprocal of the scalar. -/
def Vec3.divideScalar (a : Vec3) (s : ℝ) : Vec3 := a.multiplyScalar (1 / s)

def Vec3.length (a : Vec3) : ℝ := Real.sqrt (a.x * a.x + a.y * a.y + a.z * a.z)

/-- The three.js normalize divides by the length, or by one when the length
is zero (the JavaScript fallback on a falsy length). -/
def Vec3.normalize (a : Vec3) : Vec3 :=
  a.divideScalar (if a.length = 0 then 1 else a.length)

def Vec3.distanceTo (a b : Vec3) : ℝ := (a.sub b).length

-- Constants of src/main.js, lines 6 to 9.
def G : ℝ := 1
def dt : ℝ := 1 / 100
def minDistance : ℝ := 1 / 10
def maxTrailLength : ℕ := 100

/-- A body of the simulation: the physics-relevant fields of the Body
class (the trail geometry objects are render-only and carry no
simulation state beyond trailPositions). -/
structure Body where
  position : Vec3
  velocity : Vec3
  mass : ℝ
  color : ℕ
  trailPositions : List Vec3

/-- The Body constructor, src/main.js lines 13 to 23: stores the given
fields and starts with an empty trail.  It performs no validation. -/
def constructBody (position velocity : Vec3) (mass : ℝ) (color : ℕ) : Body :=
  ⟨position, velocity, mass, color, []⟩

/-- Method applyForce of Body, lines 25 to 29: acceleration is the force divided
by the mass, and the velocity is incremented by acceleration times dt. -/
def Body.applyForce (b : Body) (force : Vec3) : Body :=
  { b with velocity := b.velocity.add ((force.divideScalar b.mass).multiplyScalar dt) }

/-- Method updatePosition of Body, lines 31 to 33: the position is incremented by
the current velocity times dt. -/
def Body.updatePosition (b : Body) : Body :=
  { b with position := b.position.add (b.velocity.multiplyScalar dt) }

/-- The trail append of Body.updateTrail, lines 35 to 42: push the
position, then shift out the oldest entry when the length exceeds
maxTrailLength. -/
def appendTrail (t : List Vec3) (p : Vec3) : List Vec3 :=
  let pushed := t ++ [p]
  if maxTrailLength < pushed.length then pushed.tail else pushed

/-- Method updateTrail of Body, lines 35 to 55 (the geometry-array rebuild on
lines 44 to 54 is render-only and keeps no extra state). -/
def Body.updateTrail (b : Body) : Body :=
  { b with trailPositions := appendTrail b.trailPositions b.position }

/-- computeGravitationalForce, lines 81 to 92. -/
def computeGravitationalForce (body1 body2 : Body) : Vec3 :=
  let distanceVec := body2.position.sub body1.position
  let distance0 := distanceVec.length
  let distance := if distance0 < minDistance then minDistance else distance0
  let forceMagnitude := G * body1.mass * body2.mass / (distance * distance)
  distanceVec.normalize.multiplyScalar forceMagnitude

/-- getOrbitalVelocity, lines 59 to 62. -/
def getOrbitalVelocity (body1 body2 : Body) : ℝ :=
  Real.sqrt (G * body2.mass / body1.position.distanceTo body2.position)

/-- The orbital seeding pattern repeated on lines 70 to 73 and 75 to 78:
rotate the radial direction from q to p by ninety degrees in the XY
plane and scale by the circular orbital speed. -/
def seedVelocity (p q : Body) : Vec3 :=
  let direction := (p.position.sub q.position).normalize
  (Vec3.mk (-direction.y) direction.x 0).multiplyScalar (getOrbitalVelocity p q)

-- Initial bodies, lines 65 to 67.
def bodyA0 : Body := constructBody ⟨0, 2, 0⟩ ⟨0, 0, 0⟩ 1 0xff0000
def bodyB0 : Body := constructBody ⟨1, 0, 1⟩ ⟨0, 0, 0⟩ 1 0x00ff00
def bodyC0 : Body := constructBody ⟨-1, 0, 1⟩ ⟨0, 0, 0⟩ 1 0x0000ff

/-- The simulation state: the fixed triple of bodies. -/
structure State where
  a : Body
  b : Body
  c : Body

/-- The state after the velocity seeding of lines 69 to 78: bodies A and
C receive orbital velocities around B, B keeps its initial velocity. -/
def initState : State :=
  ⟨{ bodyA0 with velocity := seedVelocity bodyA0 bodyB0 },
   bodyB0,
   { bodyC0 with velocity := seedVelocity bodyC0 bodyB0 }⟩

-- The three pairwise forces of updateBodies, lines 97 to 99.
def forceAB (s : State) : Vec3 := computeGravitationalForce s.a s.b
def forceAC (s : State) : Vec3 := computeGravitationalForce s.a s.c
def forceBC (s : State) : Vec3 := computeGravitationalForce s.b s.c

-- The net-force accumulators of updateBodies, lines 102, 105 and 108.
def netForceA (s : State) : Vec3 := (forceAB s).add (forceAC s)
def netForceB (s : State) : Vec3 := (forceAB s).negate.add (forceBC s)
def netForceC (s : State) : Vec3 := (forceAC s).negate.add (forceBC s).negate

/-- updateBodies, lines 95 to 119: compute the three pairwise forces
from the current state, apply the net force to each body, then update
every position, then append every trail. -/
def updateBodies (s : State) : State :=
  let a1 := s.a.applyForce (netForceA s)
  let b1 := s.b.applyForce (netForceB s)
  let c1 := s.c.applyForce (netForceC s)
  let a2 := a1.updatePosition
  let b2 := b1.updatePosition
  let c2 := c1.updatePosition
  ⟨a2.updateTrail, b2.updateTrail, c2.updateTrail⟩

/-- The same tick with the bodies processed in the reverse order and the
phases interleaved per body; used to express order-independence of one
tick. -/
def updateBodiesPerm (s : State) : State :=
  let c3 := ((s.c.applyForce (netForceC s)).updatePosition).updateTrail
  let b3 := ((s.b.applyForce (netForceB s)).updatePosition).updateTrail
  let a3 := ((s.a.applyForce (netForceA s)).updatePosition).updateTrail
  ⟨a3, b3, c3⟩

/-- Total momentum of the state: the sum over the bodies of mass times
velocity. -/
def momentum (s : State) : Vec3 :=
  ((s.a.velocity.multiplyScalar s.a.mass).add
    (s.b.velocity.multiplyScalar s.b.mass)).add
    (s.c.velocity.multiplyScalar s.c.mass)

/-- The velocity update the spec describes for semi-implicit Euler,
written with componentwise field division. -/
def eulerVelSpec (v F : Vec3) (m : ℝ) : Vec3 :=
  ⟨v.x + F.x / m * dt, v.y + F.y / m * dt, v.z + F.z / m * dt⟩

/-- The position update the spec describes: the old position advanced by
the already-updated velocity times dt. -/
def eulerPosSpec (p v : Vec3) : Vec3 :=
  ⟨p.x + v.x * dt, p.y + v.y * dt, p.z + v.z * dt⟩

-- Basic facts about the embedded vector operations.

lemma Vec3.length_nonneg (a : Vec3) : 0 ≤ a.length := Real.sqrt_nonneg _

lemma length_sub_swap (u v : Vec3) : (u.sub v).length = (v.sub u).length := by
  simp only [Vec3.sub, Vec3.length]
  congr 1
  ring

lemma distanceTo_eq_length_sub (a b : Vec3) : a.distanceTo b = (b.sub a).length :=
  length_sub_swap a b

lemma Vec3.length_multiplyScalar (a : Vec3) (s : ℝ) :
    (a.multiplyScalar s).length = |s| * a.length := by
  simp only [Vec3.multiplyScalar, Vec3.length]
  rw [show a.x * s * (a.x * s) + a.y * s * (a.y * s) + a.z * s * (a.z * s)
      = (s * s) * (a.x * a.x + a.y * a.y + a.z * a.z) by ring]
  rw [Real.sqrt_mul (mul_self_nonneg s), Real.sqrt_mul_self_eq_abs]

lemma Vec3.normalize_length (a : Vec3) (h : a.length ≠ 0) : a.normalize.length = 1 := by
  have h0 : 0 < a.length := (a.length_nonneg).lt_of_ne (Ne.symm h)
  simp only [Vec3.normalize, Vec3.divideScalar, if_neg h, Vec3.length_multiplyScalar]
  rw [abs_of_pos (by positivity)]
  field_simp

lemma Vec3.length_negate (a : Vec3) : a.negate.length = a.length := by
  simp only [Vec3.negate, Vec3.length]
  congr 1
  ring

lemma Vec3.negate_multiplyScalar (a : Vec3) (s : ℝ) :
    (a.negate).multiplyScalar s = (a.multiplyScalar s).negate := by
  simp only [Vec3.negate, Vec3.multiplyScalar]
  ext <;> dsimp <;> ring

lemma Vec3.normalize_negate (a : Vec3) : a.negate.normalize = a.normalize.negate := by
  simp only [Vec3.normalize, Vec3.length_negate, Vec3.divideScalar]
  exact Vec3.negate_multiplyScalar a _

lemma sub_negate (u v : Vec3) : u.sub v = (v.sub u).negate := by
  simp only [Vec3.sub, Vec3.negate]
  ext <;> dsimp <;> ring

/-- The gravitational force is antisymmetric in its two arguments. -/
lemma computeForce_antisymm (x y : Body) :
    computeGravitationalForce y x = (computeGravitationalForce x y).negate := by
  simp only [computeGravitationalForce]
  rw [sub_negate x.position y.position, Vec3.length_negate, Vec3.normalize_negate,
    Vec3.negate_multiplyScalar,
    show G * y.mass * x.mass = G * x.mass * y.mass by ring]

/-- The force reads only the positions and the masses of its arguments. -/
lemma computeForce_snapshot (x y u v : Body)
    (hp : x.position = u.position) (hq : y.position = v.position)
    (hm : x.mass = u.mass) (hn : y.mass = v.mass) :
    computeGravitationalForce x y = computeGravitationalForce u v := by
  simp only [computeGravitationalForce, hp, hq, hm, hn]

/-- Claim C1: one tick updates every body by semi-implicit Euler: the
new velocity is v + (F/m)*dt, and the new position is the old position
advanced with the already-updated velocity times dt. -/
theorem semi_implicit_euler_tick (s : State)
    (_ha : 0 < s.a.mass) (_hb : 0 < s.b.mass) (_hc : 0 < s.c.mass) :
    ((updateBodies s).a.velocity = eulerVelSpec s.a.velocity (netForceA s) s.a.mass ∧
      (updateBodies s).a.position = eulerPosSpec s.a.position (updateBodies s).a.velocity) ∧
    ((updateBodies s).b.velocity = eulerVelSpec s.b.velocity (netForceB s) s.b.mass ∧
      (updateBodies s).b.position = eulerPosSpec s.b.position (updateBodies s).b.velocity) ∧
    ((updateBodies s).c.velocity = eulerVelSpec s.c.velocity (netForceC s) s.c.mass ∧
      (updateBodies s).c.position = eulerPosSpec s.c.position (updateBodies s).c.velocity) := by
  refine ⟨⟨?_, ?_⟩, ⟨?_, ?_⟩, ⟨?_, ?_⟩⟩ <;>
    simp only [updateBodies, Body.applyForce, Body.updatePosition, Body.updateTrail,
      eulerVelSpec, eulerPosSpec, Vec3.add, Vec3.multiplyScalar, Vec3.divideScalar] <;>
    ext <;> dsimp <;> ring

/-- Claim C2: each pairwise force appears in the two accumulators of the
tick with opposite signs: the contribution to one body of a pair is the
exact negation of the contribution to the other, and the force function
itself is antisymmetric. -/
theorem newton_third_law_pairing :
    (∀ x y : Body, computeGravitationalForce y x = (computeGravitationalForce x y).negate) ∧
    ∀ s : State,
      netForceA s = (forceAB s).add (forceAC s) ∧
      netForceB s = ((forceAB s).negate).add (forceBC s) ∧
      netForceC s = ((forceAC s).negate).add ((forceBC s).negate) :=
  ⟨computeForce_antisymm, fun _ => ⟨rfl, rfl, rfl⟩⟩

/-- Claim C6 counterexample: the Body constructor performs no mass
validation: constructing with mass -1 succeeds, yields a body of
non-positive mass, and that body passes through a simulation tick. -/
theorem construction_accepts_nonpositive_mass :
    (constructBody ⟨0, 0, 0⟩ ⟨0, 0, 0⟩ (-1) 0).mass = -1 ∧
    (constructBody ⟨0, 0, 0⟩ ⟨0, 0, 0⟩ (-1) 0).mass ≤ 0 ∧
    (updateBodies ⟨constructBody ⟨0, 0, 0⟩ ⟨0, 0, 0⟩ (-1) 0, bodyB0, bodyC0⟩).a.mass = -1 :=
  ⟨rfl, by norm_num [constructBody], rfl⟩

/-- Claim C6 amended: Body construction performs no validation at all:
for every input, including non-positive masses, it returns a body
storing exactly the given fields and an empty trail. -/
theorem constructor_no_mass_validation (p v : Vec3) (m : ℝ) (c : ℕ) :
    (constructBody p v m c).mass = m ∧ (constructBody p v m c).position = p ∧
    (constructBody p v m c).velocity = v ∧ (constructBody p v m c).trailPositions = [] :=
  ⟨rfl, rfl, rfl, rfl⟩

/-- Claim C7: every pairwise force of a tick is a function of the
start-of-tick positions and masses only (never of data mutated during
the tick), and processing the bodies in a different order, even with the
per-body phases interleaved, produces the identical tick result. -/
theorem forces_from_snapshot_order_independent :
    (∀ s t : State,
        s.a.position = t.a.position → s.b.position = t.b.position →
        s.c.position = t.c.position → s.a.mass = t.a.mass →
        s.b.mass = t.b.mass → s.c.mass = t.c.mass →
        forceAB s = forceAB t ∧ forceAC s = forceAC t ∧ forceBC s = forceBC t) ∧
    ∀ s : State, updateBodiesPerm s = updateBodies s := by
  refine ⟨fun s t h1 h2 h3 h4 h5 h6 => ?_, fun s => rfl⟩
  exact ⟨computeForce_snapshot _ _ _ _ h1 h2 h4 h5,
    computeForce_snapshot _ _ _ _ h1 h3 h4 h6,
    computeForce_snapshot _ _ _ _ h2 h3 h5 h6⟩

-- Facts about the trail buffer.

lemma appendTrail_eq_drop_append (t : List Vec3) (p : Vec3) :
    ∃ k, appendTrail t p = t.drop k ++ [p] := by
  unfold appendTrail
  by_cases h : maxTrailLength < (t ++ [p]).length
  · refine ⟨1, ?_⟩
    rw [if_pos h]
    have ht : 1 ≤ t.length := by
      simp only [List.length_append, List.length_singleton, maxTrailLength] at h
      omega
    rw [← List.drop_one, List.drop_append_of_le_length ht]
  · exact ⟨0, by rw [if_neg h]; simp⟩

lemma appendTrail_length (t : List Vec3) (p : Vec3) (h : t.length ≤ maxTrailLength) :
    (appendTrail t p).length ≤ maxTrailLength := by
  unfold appendTrail
  by_cases hc : maxTrailLength < (t ++ [p]).length
  · rw [if_pos hc]
    simp only [List.length_tail, List.length_append, List.length_singleton]
    omega
  · rw [if_neg hc]
    omega

lemma appendTrail_as_drop (t : List Vec3) (p : Vec3) (h : t.length ≤ maxTrailLength) :
    appendTrail t p = (t ++ [p]).drop ((t.length + 1) - maxTrailLength) := by
  unfold appendTrail
  by_cases hc : maxTrailLength < (t ++ [p]).length
  · rw [if_pos hc]
    simp only [List.length_append, List.length_singleton] at hc
    rw [show t.length + 1 - maxTrailLength = 1 by omega, List.drop_one]
  · rw [if_neg hc]
    simp only [List.length_append, List.length_singleton, not_lt] at hc
    rw [show t.length + 1 - maxTrailLength = 0 by omega, List.drop_zero]

set_option maxRecDepth 4000 in
/-- Folding the trail append over any input sequence retains exactly the
most recent maxTrailLength entries of the accumulated history. -/
lemma foldl_appendTrail (ps t : List Vec3) (h : t.length ≤ maxTrailLength) :
    List.foldl appendTrail t ps = (t ++ ps).drop ((t ++ ps).length - maxTrailLength) := by
  induction ps generalizing t with
  | nil =>
    simp only [List.foldl_nil, List.append_nil]
    rw [show t.length - maxTrailLength = 0 by omega, List.drop_zero]
  | cons p ps ih =>
    rw [List.foldl_cons, ih (appendTrail t p) (appendTrail_length t p h)]
    rw [appendTrail_as_drop t p h]
    set k := (t.length + 1) - maxTrailLength with hk
    have hkle : k ≤ (t ++ [p]).length := by
      simp only [List.length_append, List.length_singleton]
      omega
    rw [← List.drop_append_of_le_length hkle, List.drop_drop, List.append_assoc]
    simp only [List.singleton_append, List.length_drop, List.length_append,
      List.length_cons, List.length_singleton]
    congr 1
    omega

/-- Claim C3: a tick keeps every trail within maxTrailLength, and the
append is FIFO: fed any sequence of positions from an empty trail, the
buffer retains exactly the most recent maxTrailLength inputs in
chronological order (the drop of all but the last maxTrailLength). -/
theorem trail_bound_fifo :
    (∀ s : State,
        s.a.trailPositions.length ≤ maxTrailLength →
        s.b.trailPositions.length ≤ maxTrailLength →
        s.c.trailPositions.length ≤ maxTrailLength →
        (updateBodies s).a.trailPositions.length ≤ maxTrailLength ∧
        (updateBodies s).b.trailPositions.length ≤ maxTrailLength ∧
        (updateBodies s).c.trailPositions.length ≤ maxTrailLength) ∧
    ∀ ps : List Vec3, maxTrailLength < ps.length →
      List.foldl appendTrail [] ps = ps.drop (ps.length - maxTrailLength) := by
  constructor
  · intro s ha hb hc
    exact ⟨appendTrail_length _ _ ha, appendTrail_length _ _ hb, appendTrail_length _ _ hc⟩
  · intro ps _
    have h := foldl_appendTrail ps [] (by simp)
    simpa using h

/-- Claim C3 witness: one hundred and one identical positions fed from
an empty trail leave exactly the last one hundred. -/
theorem trail_bound_fifo_witness :
    (initState.a.trailPositions.length ≤ maxTrailLength ∧
      initState.b.trailPositions.length ≤ maxTrailLength ∧
      initState.c.trailPositions.length ≤ maxTrailLength ∧
      (updateBodies initState).a.trailPositions.length ≤ maxTrailLength) ∧
    maxTrailLength < (List.replicate 101 (Vec3.mk 0 0 0)).length ∧
    List.foldl appendTrail [] (List.replicate 101 (Vec3.mk 0 0 0))
      = (List.replicate 101 (Vec3.mk 0 0 0)).drop
          ((List.replicate 101 (Vec3.mk 0 0 0)).length - maxTrailLength) := by
  have h0a : initState.a.trailPositions.length ≤ maxTrailLength := Nat.zero_le _
  have h0b : initState.b.trailPositions.length ≤ maxTrailLength := Nat.zero_le _
  have h0c : initState.c.trailPositions.length ≤ maxTrailLength := Nat.zero_le _
  have hl : maxTrailLength < (List.replicate 101 (Vec3.mk 0 0 0)).length := by
    simp [maxTrailLength]
  exact ⟨⟨h0a, h0b, h0c, (trail_bound_fifo.1 initState h0a h0b h0c).1⟩,
    hl, trail_bound_fifo.2 _ hl⟩

/-- The trail of a body after the per-body tick phases: the appended
entry is the just-updated position, it is the last entry, and the
previously stored entries survive unchanged (up to FIFO eviction from
the front). -/
lemma trailAfterTick (b : Body) (F : Vec3) :
    (∃ k, (((b.applyForce F).updatePosition).updateTrail).trailPositions
        = b.trailPositions.drop k ++ [(((b.applyForce F).updatePosition).updateTrail).position]) ∧
    (((b.applyForce F).updatePosition).updateTrail).trailPositions.getLast?
        = some (((b.applyForce F).updatePosition).updateTrail).position := by
  obtain ⟨k, hk⟩ := appendTrail_eq_drop_append b.trailPositions
    (((b.applyForce F).updatePosition)).position
  constructor
  · exact ⟨k, hk⟩
  · show (appendTrail b.trailPositions _).getLast? = _
    rw [hk]
    exact List.getLast?_concat _

/-- Claim C10: after a tick, the most recent trail entry of every body
is the current end-of-tick position of that body, and the previously stored
entries are value copies that the tick leaves unchanged (the new trail
is a drop of the old one with the new position appended). -/
theorem trail_last_entry_current_position (s : State) :
    ((∃ k, (updateBodies s).a.trailPositions
        = s.a.trailPositions.drop k ++ [(updateBodies s).a.position]) ∧
      (updateBodies s).a.trailPositions.getLast? = some (updateBodies s).a.position) ∧
    ((∃ k, (updateBodies s).b.trailPositions
        = s.b.trailPositions.drop k ++ [(updateBodies s).b.position]) ∧
      (updateBodies s).b.trailPositions.getLast? = some (updateBodies s).b.position) ∧
    ((∃ k, (updateBodies s).c.trailPositions
        = s.c.trailPositions.drop k ++ [(updateBodies s).c.position]) ∧
      (updateBodies s).c.trailPositions.getLast? = some (updateBodies s).c.position) :=
  ⟨trailAfterTick s.a _, trailAfterTick s.b _, trailAfterTick s.c _⟩

/-- Claim C1 witness: the seeded initial state has positive masses and
its first tick satisfies the semi-implicit Euler equations. -/
theorem semi_implicit_euler_tick_witness :
    (0 < initState.a.mass ∧ 0 < initState.b.mass ∧ 0 < initState.c.mass) ∧
    (updateBodies initState).a.velocity
      = eulerVelSpec initState.a.velocity (netForceA initState) initState.a.mass ∧
    (updateBodies initState).a.position
      = eulerPosSpec initState.a.position (updateBodies initState).a.velocity :=
  ⟨⟨one_pos, one_pos, one_pos⟩,
    (semi_implicit_euler_tick initState one_pos one_pos one_pos).1.1,
    (semi_implicit_euler_tick initState one_pos one_pos one_pos).1.2⟩

/-- The unseeded initial triple: same positions and masses as the seeded
state, different velocities. -/
def restState : State := ⟨bodyA0, bodyB0, bodyC0⟩

/-- Claim C7 witness: the seeded state and the unseeded state share
positions and masses, hence all pairwise forces, and the permuted tick
agrees with the reference tick on the seeded state. -/
theorem forces_from_snapshot_order_independent_witness :
    (forceAB initState = forceAB restState ∧ forceAC initState = forceAC restState ∧
      forceBC initState = forceBC restState) ∧
    updateBodiesPerm initState = updateBodies initState :=
  ⟨forces_from_snapshot_order_independent.1 initState restState rfl rfl rfl rfl rfl rfl,
    forces_from_snapshot_order_independent.2 initState⟩

/-- Claim C8: two bodies with exactly identical positions produce the
zero force vector, a deterministic finite result. -/
theorem coincident_zero_force (a b : Body) (h : a.position = b.position) :
    computeGravitationalForce a b = ⟨0, 0, 0⟩ := by
  have hsub : Vec3.sub b.position a.position = ⟨0, 0, 0⟩ := by
    rw [h]
    ext <;> simp [Vec3.sub]
  simp only [computeGravitationalForce, hsub]
  ext <;> simp [Vec3.normalize, Vec3.divideScalar, Vec3.multiplyScalar]

def coincA : Body := constructBody ⟨1, 2, 3⟩ ⟨0, 0, 0⟩ 1 0
def coincB : Body := constructBody ⟨1, 2, 3⟩ ⟨4, 5, 6⟩ 2 0

/-- Claim C8 witness: two concrete coincident bodies get zero force. -/
theorem coincident_zero_force_witness :
    coincA.position = coincB.position ∧ computeGravitationalForce coincA coincB = ⟨0, 0, 0⟩ :=
  ⟨rfl, coincident_zero_force coincA coincB rfl⟩

/-- Length of the force vector, with the clamped distance explicit. -/
lemma computeForce_length (a b : Body) (hma : 0 < a.mass) (hmb : 0 < b.mass)
    (h : (Vec3.sub b.position a.position).length ≠ 0) :
    (computeGravitationalForce a b).length
      = G * a.mass * b.mass /
        (if (Vec3.sub b.position a.position).length < minDistance then minDistance
          else (Vec3.sub b.position a.position).length) ^ 2 := by
  simp only [computeGravitationalForce]
  set d := Vec3.sub b.position a.position with hd
  set rc := if d.length < minDistance then minDistance else d.length with hrcdef
  have hr0 : 0 < d.length := (Vec3.length_nonneg d).lt_of_ne (Ne.symm h)
  have hrc : 0 < rc := by
    rw [hrcdef]
    by_cases hcase : d.length < minDistance
    · rw [if_pos hcase]; norm_num [minDistance]
    · rw [if_neg hcase]; exact hr0
  have hG : (0 : ℝ) < G := by norm_num [G]
  rw [Vec3.length_multiplyScalar, Vec3.normalize_length d h, mul_one,
    abs_of_pos (div_pos (mul_pos (mul_pos hG hma) hmb) (mul_pos hrc hrc)), pow_two]

/-- Claim C4: when the true distance is strictly between zero and
minDistance, the force magnitude uses the clamped distance; at or above
minDistance it uses the true distance. -/
theorem distance_floor_force_magnitude (a b : Body) (hma : 0 < a.mass) (hmb : 0 < b.mass) :
    (0 < a.position.distanceTo b.position → a.position.distanceTo b.position < minDistance →
      (computeGravitationalForce a b).length = G * a.mass * b.mass / minDistance ^ 2) ∧
    (minDistance ≤ a.position.distanceTo b.position →
      (computeGravitationalForce a b).length
        = G * a.mass * b.mass / (a.position.distanceTo b.position) ^ 2) := by
  have hdist : a.position.distanceTo b.position = (Vec3.sub b.position a.position).length :=
    distanceTo_eq_length_sub _ _
  constructor
  · intro h0 hlt
    have hne : (Vec3.sub b.position a.position).length ≠ 0 := by
      rw [← hdist]; exact ne_of_gt h0
    rw [computeForce_length a b hma hmb hne, if_pos (by rw [← hdist]; exact hlt)]
  · intro hge
    have h0 : 0 < (Vec3.sub b.position a.position).length := by
      rw [← hdist]
      exact lt_of_lt_of_le (by norm_num [minDistance]) hge
    rw [computeForce_length a b hma hmb (ne_of_gt h0),
      if_neg (by rw [← hdist]; exact not_lt.mpr hge), hdist]

def nearA : Body := constructBody ⟨0, 0, 0⟩ ⟨0, 0, 0⟩ 1 0
def nearB : Body := constructBody ⟨1 / 20, 0, 0⟩ ⟨0, 0, 0⟩ 1 0

/-- Claim C4 witness: two unit masses one twentieth apart, closer than
the floor of one tenth, feel the clamped magnitude. -/
theorem distance_floor_force_magnitude_witness :
    (0 < nearA.mass ∧ 0 < nearB.mass ∧
      0 < nearA.position.distanceTo nearB.position ∧
      nearA.position.distanceTo nearB.position < minDistance) ∧
    (computeGravitationalForce nearA nearB).length
      = G * nearA.mass * nearB.mass / minDistance ^ 2 := by
  have hd : nearA.position.distanceTo nearB.position = 1 / 20 := by
    simp only [nearA, nearB, constructBody, Vec3.distanceTo, Vec3.sub, Vec3.length]
    rw [show (0 : ℝ) - 1 / 20 = -(1 / 20) by norm_num]
    rw [show (-(1 / 20 : ℝ)) * (-(1 / 20)) + (0 - 0) * (0 - 0) + (0 - 0) * (0 - 0)
        = (1 / 20) * (1 / 20) by ring]
    exact Real.sqrt_mul_self (by norm_num)
  have h1 : 0 < nearA.position.distanceTo nearB.position := by rw [hd]; norm_num
  have h2 : nearA.position.distanceTo nearB.position < minDistance := by
    rw [hd]; norm_num [minDistance]
  exact ⟨⟨one_pos, one_pos, h1, h2⟩,
    (distance_floor_force_magnitude nearA nearB one_pos one_pos).1 h1 h2⟩

lemma Vec3.length_eq_zero_iff (a : Vec3) : a.length = 0 ↔ a = ⟨0, 0, 0⟩ := by
  unfold Vec3.length
  constructor
  · intro hl
    have h0 : 0 ≤ a.x * a.x + a.y * a.y + a.z * a.z := by
      nlinarith [mul_self_nonneg a.x, mul_self_nonneg a.y, mul_self_nonneg a.z]
    have hsum : a.x * a.x + a.y * a.y + a.z * a.z = 0 := (Real.sqrt_eq_zero h0).mp hl
    ext <;> dsimp <;>
      nlinarith [mul_self_nonneg a.x, mul_self_nonneg a.y, mul_self_nonneg a.z]
  · rintro rfl
    simp

lemma Vec3.sub_eq_zero_iff (u v : Vec3) : u.sub v = ⟨0, 0, 0⟩ ↔ u = v := by
  simp [Vec3.sub, Vec3.ext_iff, sub_eq_zero]

/-- Claim C5: for distinct positions the seeded orbital velocity is the
radial unit vector from the reference to the orbiter rotated ninety
degrees in the XY plane, scaled by the circular orbital speed
sqrt(G times reference mass over the distance). -/
theorem orbital_velocity_seeding (p q : Body) (h : p.position ≠ q.position) :
    seedVelocity p q
      = (Vec3.mk
          (-(((p.position.sub q.position).divideScalar
              (p.position.sub q.position).length).y))
          (((p.position.sub q.position).divideScalar
              (p.position.sub q.position).length).x)
          0).multiplyScalar
          (Real.sqrt (G * q.mass / p.position.distanceTo q.position)) := by
  have hne : (p.position.sub q.position).length ≠ 0 := by
    intro hzero
    exact h ((Vec3.sub_eq_zero_iff _ _).mp ((Vec3.length_eq_zero_iff _).mp hzero))
  simp only [seedVelocity, Vec3.normalize, if_neg hne, getOrbitalVelocity]

def orbP : Body := constructBody ⟨1, 0, 0⟩ ⟨0, 0, 0⟩ 1 0
def orbQ : Body := constructBody ⟨0, 0, 0⟩ ⟨0, 0, 0⟩ 1 0

/-- Claim C5 witness: a body at (1,0,0) around a stationary unit mass at
the origin with G equal to one is seeded with velocity exactly (0,1,0). -/
theorem orbital_velocity_seeding_witness :
    orbP.position ≠ orbQ.position ∧ seedVelocity orbP orbQ = ⟨0, 1, 0⟩ := by
  have hne : orbP.position ≠ orbQ.position := by
    simp only [orbP, orbQ, constructBody, ne_eq, Vec3.ext_iff]
    norm_num
  refine ⟨hne, ?_⟩
  rw [orbital_velocity_seeding orbP orbQ hne]
  have hsub : orbP.position.sub orbQ.position = ⟨1, 0, 0⟩ := by
    ext <;> simp [orbP, orbQ, constructBody, Vec3.sub]
  have hlen : (Vec3.mk 1 0 0).length = 1 := by
    simp [Vec3.length]
  have hdist : orbP.position.distanceTo orbQ.position = 1 := by
    rw [Vec3.distanceTo]
    have : orbP.position.sub orbQ.position = ⟨1, 0, 0⟩ := hsub
    rw [this, hlen]
  rw [hsub, hlen, hdist]
  have hq : orbQ.mass = 1 := rfl
  rw [hq]
  ext <;> simp [Vec3.divideScalar, Vec3.multiplyScalar, G]

/-- Claim C9: one tick conserves total momentum exactly in the real
idealisation: the pairwise contributions cancel by construction. -/
theorem momentum_conserved_tick (s : State)
    (ha : 0 < s.a.mass) (hb : 0 < s.b.mass) (hc : 0 < s.c.mass) :
    momentum (updateBodies s) = momentum s := by
  simp only [momentum, updateBodies, Body.applyForce, Body.updatePosition, Body.updateTrail,
    netForceA, netForceB, netForceC, Vec3.add, Vec3.negate, Vec3.multiplyScalar,
    Vec3.divideScalar]
  ext <;> dsimp <;> field_simp [ha.ne', hb.ne', hc.ne'] <;> ring

/-- Claim C9 witness: momentum is conserved across the first tick of the
seeded initial state. -/
theorem momentum_conserved_tick_witness :
    (0 < initState.a.mass ∧ 0 < initState.b.mass ∧ 0 < initState.c.mass) ∧
    momentum (updateBodies initState) = momentum initState :=
  ⟨⟨one_pos, one_pos, one_pos⟩, momentum_conserved_tick initState one_pos one_pos one_pos⟩

end ThreeBody

end
